import Mathlib

/-!
Verification of the `airg` document-generation and filename-safety pipeline
(`src/airg/services/document_generator.py`).

Strings are embedded as lists of Unicode code points (`List Nat`); each
Python string operation used by the pipeline is translated to an explicit
function on such lists.
-/

/-- Code-point strings: the shallow embedding of Python `str`. -/
abbrev Str := List Nat

/-- Embed a Lean string literal as its list of code points (for concrete inputs). -/
def chs (s : String) : Str := s.toList.map Char.toNat

/-! ## Filename sanitizer (`DocumentGenerator._sanitize_filename`) -/
/-- Model of the external `unidecode` library: it transliterates text to the
ASCII range and is the identity on ASCII input.  Non-ASCII code points are
modelled as dropped; every claim below exercises only ASCII inputs, where
this model agrees with the library exactly. -/
def unidecodeModel (s : Str) : Str := s.filter (fun n => n < 128)

/-- Python `\w` on ASCII text: `[A-Za-z0-9_]`. -/
def isWordCode (n : Nat) : Bool :=
  (48 ≤ n && n ≤ 57) || (65 ≤ n && n ≤ 90) || (97 ≤ n && n ≤ 122) || n == 95

/-- The substitution replacing every non-word code point (regex class `[^\w]`) by `_` (95). -/
def substNonWord (s : Str) : Str := s.map (fun n => if isWordCode n then n else 95)

/-- The substitution collapsing every underscore run (regex `_+`) to a single `_`. -/
def collapseUnderscores : Str → Str
  | [] => []
  | [n] => [n]
  | n₁ :: n₂ :: rest =>
    if n₁ == 95 && n₂ == 95 then collapseUnderscores (n₂ :: rest)
    else n₁ :: collapseUnderscores (n₂ :: rest)

/-- Python `str.strip` with argument `_`: drop underscores from both ends. -/
def stripUnderscores (s : Str) : Str :=
  ((s.dropWhile (· == 95)).reverse.dropWhile (· == 95)).reverse

/-- Python `str.lower()` on the ASCII range: map `A`–`Z` (65–90) down by 32. -/
def lowerCode (n : Nat) : Nat := if 65 ≤ n ∧ n ≤ 90 then n + 32 else n

/-- `DocumentGenerator._sanitize_filename`: unidecode, replace non-word
characters by `_`, collapse `_` runs, strip edge `_`, lower-case. -/
def sanitize_filename (s : Str) : Str :=
  (stripUnderscores (collapseUnderscores (substNonWord (unidecodeModel s)))).map lowerCode

/-! ## Filename validator (`DocumentGenerator._validate_filename`) -/
/-- The character class of `^[a-z0-9_\.]+$`: lowercase letters, digits, `_`, `.`. -/
def isFnameCode (n : Nat) : Bool :=
  (97 ≤ n && n ≤ 122) || (48 ≤ n && n ≤ 57) || n == 95 || n == 46

/-- One-dimensional substring test: does `pat` occur contiguously in `s`? -/
def occursIn (pat : Str) : Str → Bool
  | [] => pat.isEmpty
  | n :: rest => pat.isPrefixOf (n :: rest) || occursIn pat rest

/-- `re.match` with the anchored pattern `^[a-z0-9_\.]+$`: it matches iff the
string — or, because Python `$` (without MULTILINE) also matches just before
one trailing newline, the string minus one final newline — is non-empty and
lies entirely in the class. -/
def fnameRegexMatch (s : Str) : Bool :=
  (!s.isEmpty && s.all isFnameCode) ||
  (s.getLastD 0 == 10 && !s.dropLast.isEmpty && s.dropLast.all isFnameCode)

/-- `DocumentGenerator._validate_filename`: length ≥ 5, the anchored class
regex must match, no `.`/`_` at either end, no `..` and no `__`. -/
def validate_filename (s : Str) : Bool :=
  if s.length < 5 then false
  else if !(fnameRegexMatch s) then false
  else if (s.headD 0 == 46 || s.headD 0 == 95) || (s.getLastD 0 == 46 || s.getLastD 0 == 95) then false
  else if occursIn [46, 46] s || occursIn [95, 95] s then false
  else true

/-- The output character class of the sanitizer: `[a-z0-9_]`. -/
def isSanCode (n : Nat) : Bool :=
  (97 ≤ n && n ≤ 122) || (48 ≤ n && n ≤ 57) || n == 95

/-- No two adjacent underscores anywhere in the string. -/
def chainOK : Str → Bool
  | [] => true
  | [_] => true
  | a :: b :: r => !(a == 95 && b == 95) && chainOK (b :: r)

/-! ## AI output cleanup (`DocumentGenerator._cleanup_content`) -/
/-- Python `\s` on the ASCII range: space, tab, LF, VT, FF, CR. -/
def isSpaceCode (n : Nat) : Bool :=
  n == 32 || n == 9 || n == 10 || n == 11 || n == 12 || n == 13

/-- Python `str.strip()`: drop whitespace from both ends. -/
def pstrip (s : Str) : Str :=
  ((s.dropWhile isSpaceCode).reverse.dropWhile isSpaceCode).reverse

/-- Number of code points consumed by a greedy `\s*\n` match at the start of a
whitespace run `w`: up to and including the last newline of `w`, if any. -/
def lastNewlinePos (w : Str) : Option Nat :=
  match w.reverse.findIdx? (· == 10) with
  | none => none
  | some k => some (w.length - k)

/-- The substitution removing the leading fence marker (regex `^```html\s*\n`): if the text starts with the fence
marker followed by whitespace containing a newline, drop through the last
newline of that whitespace run. -/
def cleanupLeadFence (s : Str) : Str :=
  if (chs "```html").isPrefixOf s then
    match lastNewlinePos ((s.drop 7).takeWhile isSpaceCode) with
    | some k => s.drop (7 + k)
    | none => s
  else s

/-- Leftmost match of `\n```\s*$` (no MULTILINE): the first newline followed by
three backticks and nothing but whitespace up to the end; returns the text
before that newline. -/
def findTailFence : Str → Option Str
  | [] => none
  | c :: rest =>
    if c == 10 && (chs "```").isPrefixOf rest && (rest.drop 3).all isSpaceCode then
      some []
    else
      match findTailFence rest with
      | some r => some (c :: r)
      | none => none

/-- The substitution removing a trailing fence (regex `\n```\s*$`, no MULTILINE). -/
def cleanupTailFence (s : Str) : Str := (findTailFence s).getD s

/-- Drop one leading newline, if present (the `\n?` tail of the comment regex). -/
def dropOptNl : Str → Str
  | 10 :: t => t
  | s => s

/-- Find the first `-->` and return what follows it (after an optional newline). -/
def findCommentClose : Str → Option Str
  | [] => none
  | c :: rest =>
    if (chs "-->").isPrefixOf (c :: rest) then some (dropOptNl ((c :: rest).drop 3))
    else findCommentClose rest

/-- The substitution removing HTML comments (regex `<!--.*?-->\n?` with DOTALL), with explicit fuel
(the scan consumes at least one code point per step, so fuel `s.length`
suffices). -/
def removeCommentsFuel : Nat → Str → Str
  | 0, s => s
  | _, [] => []
  | fuel + 1, c :: rest =>
    if (chs "<!--").isPrefixOf (c :: rest) then
      match findCommentClose (rest.drop 3) with
      | some r => removeCommentsFuel fuel r
      | none => c :: rest
    else c :: removeCommentsFuel fuel rest

/-- Global substitution removing HTML comments. -/
def removeComments (s : Str) : Str := removeCommentsFuel s.length s

/-- `DocumentGenerator._cleanup_content`: strip a leading ```` ```html ````
marker, strip a trailing fence, remove HTML comments, trim whitespace. -/
def cleanup_content (s : Str) : Str :=
  pstrip (removeComments (cleanupTailFence (cleanupLeadFence s)))

/-- Does the text contain a complete HTML comment (a `<!--` with a later `-->`)? -/
def hasComment : Str → Bool
  | [] => false
  | c :: rest =>
    ((chs "<!--").isPrefixOf (c :: rest) && (findCommentClose (rest.drop 3)).isSome)
      || hasComment rest

/-- Already-clean text, as the claim describes it: no leading fenced-code
marker, no trailing fence, no HTML comment, no surrounding whitespace. -/
def alreadyClean (s : Str) : Bool :=
  !((chs "```html").isPrefixOf s &&
      (lastNewlinePos ((s.drop 7).takeWhile isSpaceCode)).isSome) &&
  (findTailFence s).isNone &&
  !hasComment s &&
  (pstrip s == s)

/-! ## Data model: metadata, errors, timestamps, paths -/
/-- `DocumentMetadata` (the TypedDict in the source). -/
structure DocumentMetadata where
  applicant_name : Str
  company_name_short : Str
  job_title_short : Str
  resume_title_short : Str
deriving DecidableEq

/-- `DocumentGeneratorError`, split by the message it carries. -/
inductive GenError where
  | metadataNotInitialized
  | invalidDirName (dirName : Str)
  | invalidComponent (component : Str)
  | invalidFilename (filename : Str)
  | missingFields (fields : List Str)
  | emptyFields (fields : List Str)
  | jsonDecodeError
  | typeError
deriving DecidableEq

/-- Decidable equality for `Except`, for concrete evaluations. -/
def exceptEqDec {ε α : Type} [DecidableEq ε] [DecidableEq α] :
    (a b : Except ε α) → Decidable (a = b)
  | .ok a, .ok b => if h : a = b then .isTrue (by rw [h]) else .isFalse (by simp [h])
  | .ok _, .error _ => .isFalse (by simp)
  | .error _, .ok _ => .isFalse (by simp)
  | .error e, .error f => if h : e = f then .isTrue (by rw [h]) else .isFalse (by simp [h])

instance {ε α : Type} [DecidableEq ε] [DecidableEq α] : DecidableEq (Except ε α) :=
  exceptEqDec

/-- `datetime.now()` truncated to what `%y%m%d%H%M%S` renders. -/
structure Timestamp where
  year : Nat
  month : Nat
  day : Nat
  hour : Nat
  minute : Nat
  second : Nat

/-- Two-digit zero-padded decimal rendering (`%y`, `%m`, ... each emit two
digits of the value modulo 100). -/
def pad2 (n : Nat) : Str := [48 + n / 10 % 10, 48 + n % 10]

/-- `DocumentGenerator._format_timestamp`: compact `YYMMDDHHMMSS`. -/
def format_timestamp (t : Timestamp) : Str :=
  pad2 t.year ++ pad2 t.month ++ pad2 t.day ++ pad2 t.hour ++ pad2 t.minute ++ pad2 t.second

/-- `DocumentGenerator._create_output_dir`, with the wall clock passed
explicitly and the `Path` value returned as a string; `self.base_dir` is the
relative path `resume_gen`.  The `mkdir` effect is recorded by `generate_pdfs`
below. -/
def create_output_dir (metadata : Option DocumentMetadata) (ts : Timestamp) :
    Except GenError Str :=
  match metadata with
  | none => .error .metadataNotInitialized
  | some md =>
    let timestamp := format_timestamp ts
    let company := sanitize_filename md.company_name_short
    let job := sanitize_filename md.job_title_short
    let dirName := timestamp ++ chs "_" ++ company ++ chs "_" ++ job
    if validate_filename dirName then .ok (chs "resume_gen/" ++ dirName)
    else .error (.invalidDirName dirName)

/-- `DocumentGenerator._get_file_paths`: sanitize the three name components,
validate each, and build the four paths inside `output_dir` (the `job_title`
argument is shadowed by the stored metadata in the source and has no effect). -/
def get_file_paths (metadata : Option DocumentMetadata) (output_dir : Str) :
    Except GenError (Str × Str × Str × Str) :=
  match metadata with
  | none => .error .metadataNotInitialized
  | some md =>
    let applicant := sanitize_filename md.applicant_name
    let job_title := sanitize_filename md.job_title_short
    let resume_title := sanitize_filename md.resume_title_short
    if !validate_filename applicant then .error (.invalidComponent applicant)
    else if !validate_filename job_title then .error (.invalidComponent job_title)
    else if !validate_filename resume_title then .error (.invalidComponent resume_title)
    else .ok
      (output_dir ++ chs "/" ++ applicant ++ chs "_" ++ resume_title ++ chs ".html",
       output_dir ++ chs "/" ++ applicant ++ chs "_" ++ resume_title ++ chs ".pdf",
       output_dir ++ chs "/" ++ applicant ++ chs "_cover_letter_" ++ job_title ++ chs ".html",
       output_dir ++ chs "/" ++ applicant ++ chs "_cover_letter_" ++ job_title ++ chs ".pdf")

/-- `pathlib.Path.name`: the part after the final `/` (47). -/
def pathName (p : Str) : Str := (p.reverse.takeWhile (fun n => !(n == 47))).reverse

/-- The filename-validation phase at the end of `generate_documents`: compute
the paths against the probe directory `test` and validate each `path.name`,
in the dict's insertion order. -/
def generate_documents_naming (md : DocumentMetadata) : Except GenError Unit :=
  match get_file_paths (some md) (chs "test") with
  | .error e => .error e
  | .ok (p1, p2, p3, p4) =>
    if !validate_filename (pathName p1) then .error (.invalidFilename (pathName p1))
    else if !validate_filename (pathName p2) then .error (.invalidFilename (pathName p2))
    else if !validate_filename (pathName p3) then .error (.invalidFilename (pathName p3))
    else if !validate_filename (pathName p4) then .error (.invalidFilename (pathName p4))
    else .ok ()

/-! ## HTML preparation and PDF generation -/
/-- Python `str.replace` (all non-overlapping occurrences, left to right) with
explicit fuel; one code point is consumed per step, so fuel `s.length`
suffices. -/
def replaceGo (pat rep : Str) : Nat → Str → Str
  | 0, s => s
  | _, [] => []
  | f + 1, c :: rest =>
    if pat.isPrefixOf (c :: rest) then
      rep ++ replaceGo pat rep f ((c :: rest).drop pat.length)
    else c :: replaceGo pat rep f rest

/-- Python `str.replace` (the source only uses non-empty patterns). -/
def replaceAll (pat rep s : Str) : Str :=
  if pat.isEmpty then s else replaceGo pat rep s.length s

/-- The stylesheet link tag removed by `prepare_html`. -/
def linkTag : Str := chs "<link rel=\"stylesheet\" href=\"/resume/style.css\">"

/-- The `prepare_html` closure of `_save_html_files`: remove the link tag,
then splice an inline `<style>` block in front of every `</head>`. -/
def prepare_html (css html : Str) : Str :=
  replaceAll (chs "</head>") (chs "<style>" ++ css ++ chs "</style></head>")
    (replaceAll linkTag [] html)

/-- Filesystem/browser effects performed by `generate_pdfs`. -/
inductive Effect where
  | mkdir (dir : Str)
  | writeFile (path content : Str)
  | renderPdf (htmlPath pdfPath : Str)
deriving DecidableEq

/-- `DocumentGenerator.generate_pdfs`: allocate the output locations, write
both HTML files with the stylesheet embedded, render both PDFs.  The wall
clock and the stylesheet content (read from `resume/style.css`) are passed
explicitly; the returned effect list records what was done to the filesystem,
in order. -/
def generate_pdfs (metadata : Option DocumentMetadata) (ts : Timestamp)
    (css resume_html cover_letter_html : Str) :
    Except GenError (Str × Str) × List Effect :=
  match create_output_dir metadata ts with
  | .error e => (.error e, [])
  | .ok output_dir =>
    match get_file_paths metadata output_dir with
    | .error e => (.error e, [.mkdir output_dir])
    | .ok (rhtml, rpdf, lhtml, lpdf) =>
      (.ok (rpdf, lpdf),
       [.mkdir output_dir,
        .writeFile rhtml (prepare_html css resume_html),
        .writeFile lhtml (prepare_html css cover_letter_html),
        .renderPdf rhtml rpdf,
        .renderPdf lhtml lpdf])

/-! ## JSON values and response validation (C3, C10) -/
/-- JSON values, as produced by Python `json.loads`. -/
inductive JVal where
  | jnull
  | jbool (b : Bool)
  | jnum (n : Int)
  | jstr (s : Str)
  | jarr (xs : List JVal)
  | jobj (fields : List (Str × JVal))

/-- Python truthiness on JSON values: `None`, `False`, `0`, the empty string,
the empty list and the empty dict are falsy; everything else is truthy. -/
def truthy : JVal → Bool
  | .jnull => false
  | .jbool b => b
  | .jnum n => decide (n ≠ 0)
  | .jstr s => !s.isEmpty
  | .jarr xs => !xs.isEmpty
  | .jobj fs => !fs.isEmpty

/-- `_REQUIRED_JSON_FIELDS`.  Python set iteration order is implementation
defined; it is modelled here in the literal's order. -/
def requiredFields : List Str :=
  [chs "resume_html", chs "cover_letter_html", chs "applicant_name",
   chs "company_name_short", chs "job_title_short", chs "resume_title_short"]

/-- Python `dict.get` on the parsed object. -/
def jlookup (content : List (Str × JVal)) (k : Str) : Option JVal :=
  match content.find? (fun p => p.1 == k) with
  | some p => some p.2
  | none => none

/-- A required field absent from the object's keys. -/
def fieldMissing (content : List (Str × JVal)) (f : Str) : Bool :=
  (jlookup content f).isNone

/-- `not content.get(field)`: the field's value is falsy (or the field absent). -/
def fieldEmpty (content : List (Str × JVal)) (f : Str) : Bool :=
  !(match jlookup content f with
    | some v => truthy v
    | none => false)

/-- `DocumentGenerator._validate_json_response`: report the missing required
fields, else the required fields with falsy values, else succeed. -/
def validate_json_response (content : List (Str × JVal)) : Except GenError Unit :=
  if !(requiredFields.filter (fieldMissing content)).isEmpty then
    .error (.missingFields (requiredFields.filter (fieldMissing content)))
  else if !(requiredFields.filter (fieldEmpty content)).isEmpty then
    .error (.emptyFields (requiredFields.filter (fieldEmpty content)))
  else .ok ()

/-- The metadata-storing assignment of `generate_documents`: the four values
are taken from the parsed object verbatim (never defaulted); a non-string
value would crash the later sanitization in Python, modelled as `none`. -/
def store_metadata (content : List (Str × JVal)) : Option DocumentMetadata :=
  match jlookup content (chs "applicant_name"), jlookup content (chs "company_name_short"),
        jlookup content (chs "job_title_short"), jlookup content (chs "resume_title_short") with
  | some (.jstr an), some (.jstr cn), some (.jstr jt), some (.jstr rt) =>
    some ⟨an, cn, jt, rt⟩
  | _, _, _, _ => none

/-- The test object of claim C10: all six fields are well-formed strings
except that `applicant_name` carries the given value. -/
def c10obj (v : JVal) : List (Str × JVal) :=
  [(chs "resume_html", .jstr (chs "<html>")),
   (chs "cover_letter_html", .jstr (chs "<html>")),
   (chs "applicant_name", v),
   (chs "company_name_short", .jstr (chs "acme_corp")),
   (chs "job_title_short", .jstr (chs "delivery_director")),
   (chs "resume_title_short", .jstr (chs "senior_resume"))]

/-! ## Structured response extraction and JSON decoding (C2) -/
/-- JSON whitespace. -/
def isJsonWs (n : Nat) : Bool := n == 32 || n == 9 || n == 10 || n == 13

/-- Skip JSON whitespace. -/
def skipWs (s : Str) : Str := s.dropWhile isJsonWs

/-- JSON string escapes (`\uXXXX` is not modelled; none of the texts
considered here use it). -/
def unescape (n : Nat) : Option Nat :=
  if n == 34 then some 34
  else if n == 92 then some 92
  else if n == 47 then some 47
  else if n == 98 then some 8
  else if n == 102 then some 12
  else if n == 110 then some 10
  else if n == 114 then some 13
  else if n == 116 then some 9
  else none

/-- Parse a JSON string body (after the opening quote): the decoded content
and the remainder after the closing quote. -/
def parseStringBody : Str → Option (Str × Str)
  | [] => none
  | c :: rest =>
    if c == 34 then some ([], rest)
    else if c == 92 then
      match rest with
      | [] => none
      | e :: rest2 =>
        match unescape e with
        | some ch =>
          match parseStringBody rest2 with
          | some (str, r) => some (ch :: str, r)
          | none => none
        | none => none
    else if c < 32 then none
    else
      match parseStringBody rest with
      | some (str, r) => some (c :: str, r)
      | none => none

/-- A digit `0`–`9`. -/
def isDigitCode (n : Nat) : Bool := 48 ≤ n && n ≤ 57

/-- Decimal digits to a number. -/
def digitsToNat (l : Str) : Nat := l.foldl (fun acc d => acc * 10 + (d - 48)) 0

/-- Parse a JSON integer (the model omits fractions and exponents; none of
the texts considered here use them). -/
def parseNumber (s : Str) : Option (JVal × Str) :=
  match s with
  | 45 :: rest =>
    let ds := rest.takeWhile isDigitCode
    if ds.isEmpty then none
    else some (.jnum (-(digitsToNat ds : Int)), rest.dropWhile isDigitCode)
  | _ =>
    let ds := s.takeWhile isDigitCode
    if ds.isEmpty then none
    else some (.jnum (digitsToNat ds : Int), s.dropWhile isDigitCode)

mutual

/-- Parse one JSON value; fuel bounds the nesting depth (each level consumes
at least one code point, so `length + 1` suffices). -/
def parseJVal : Nat → Str → Option (JVal × Str)
  | 0, _ => none
  | f + 1, s =>
    match skipWs s with
    | [] => none
    | c :: rest =>
      if c == 110 then
        if (chs "ull").isPrefixOf rest then some (.jnull, rest.drop 3) else none
      else if c == 116 then
        if (chs "rue").isPrefixOf rest then some (.jbool true, rest.drop 3) else none
      else if c == 102 then
        if (chs "alse").isPrefixOf rest then some (.jbool false, rest.drop 4) else none
      else if c == 34 then
        match parseStringBody rest with
        | some (str, r) => some (.jstr str, r)
        | none => none
      else if c == 91 then
        match parseArrItems f rest with
        | some (xs, r) => some (.jarr xs, r)
        | none => none
      else if c == 123 then
        match parseObjItems f rest with
        | some (fs, r) => some (.jobj fs, r)
        | none => none
      else parseNumber (c :: rest)

/-- Array elements, entered right after `[`. -/
def parseArrItems : Nat → Str → Option (List JVal × Str)
  | 0, _ => none
  | f + 1, s =>
    match skipWs s with
    | 93 :: rest => some ([], rest)
    | _ =>
      match parseJVal f s with
      | some (v, r) =>
        match parseArrMore f r with
        | some (vs, r2) => some (v :: vs, r2)
        | none => none
      | none => none

/-- Array continuation: `,` element ... or `]`. -/
def parseArrMore : Nat → Str → Option (List JVal × Str)
  | 0, _ => none
  | f + 1, r =>
    match skipWs r with
    | 44 :: r1 =>
      match parseJVal f r1 with
      | some (v, r2) =>
        match parseArrMore f r2 with
        | some (vs, r3) => some (v :: vs, r3)
        | none => none
      | none => none
    | 93 :: r1 => some ([], r1)
    | _ => none

/-- Object members, entered right after the opening brace. -/
def parseObjItems : Nat → Str → Option (List (Str × JVal) × Str)
  | 0, _ => none
  | f + 1, s =>
    match skipWs s with
    | 125 :: rest => some ([], rest)
    | 34 :: rest =>
      match parseStringBody rest with
      | some (k, r1) =>
        match skipWs r1 with
        | 58 :: r2 =>
          match parseJVal f r2 with
          | some (v, r3) =>
            match parseObjMore f r3 with
            | some (fs, r4) => some ((k, v) :: fs, r4)
            | none => none
          | none => none
        | _ => none
      | none => none
    | _ => none

/-- Object continuation: `,` member ... or the closing brace. -/
def parseObjMore : Nat → Str → Option (List (Str × JVal) × Str)
  | 0, _ => none
  | f + 1, r =>
    match skipWs r with
    | 125 :: r1 => some ([], r1)
    | 44 :: r1 =>
      match skipWs r1 with
      | 34 :: r2 =>
        match parseStringBody r2 with
        | some (k, r3) =>
          match skipWs r3 with
          | 58 :: r4 =>
            match parseJVal f r4 with
            | some (v, r5) =>
              match parseObjMore f r5 with
              | some (fs, r6) => some ((k, v) :: fs, r6)
              | none => none
            | none => none
          | _ => none
        | none => none
      | _ => none
    | _ => none

end

/-- Model of Python `json.loads` (an external library): parse one JSON value
and require only whitespace after it. -/
def jsonLoads (s : Str) : Option JVal :=
  match parseJVal (s.length + 1) s with
  | some (v, r) => if (skipWs r).isEmpty then some v else none
  | none => none

/-- The substitution removing a leading fence (regex `^```json\s*`): strip a leading ```` ```json ````
marker and the whitespace run after it. -/
def stripJsonLeadFence (s : Str) : Str :=
  if (chs "```json").isPrefixOf s then (s.drop 7).dropWhile isSpaceCode else s

/-- The substitution removing a trailing fence (regex `\s*```$`, no MULTILINE): remove a final ```` ``` ````
together with the whitespace run before it; `$` also matches just before a
final newline, in which case that newline stays. -/
def stripJsonTailFence (s : Str) : Str :=
  let r := s.reverse
  if [96, 96, 96].isPrefixOf r then ((r.drop 3).dropWhile isSpaceCode).reverse
  else if [10, 96, 96, 96].isPrefixOf r then
    ((r.drop 4).dropWhile isSpaceCode).reverse ++ [10]
  else s

/-- The substitution keeping only the first capture of the greedy regex
`^[^{]*({.*})[^}]*$` under DOTALL: when the
text has an open brace with a closing brace somewhere after it, the greedy
match replaces the whole text by the span from the first open brace to the
last closing brace; otherwise there is no match and the text is unchanged. -/
def extractBraceSpan (s : Str) : Str :=
  match s.findIdx? (· == 123), s.reverse.findIdx? (· == 125) with
  | some i, some k =>
    let j := s.length - 1 - k
    if i < j then (s.take (j + 1)).drop i else s
  | _, _ => s

/-- The response postprocessing in `_generate_content`: strip whitespace,
strip code fences, extract the brace span. -/
def generate_content_extract (s : Str) : Str :=
  extractBraceSpan (stripJsonTailFence (stripJsonLeadFence (pstrip s)))

/-- The JSON-parsing step of `generate_documents`: decode the extracted text,
failing with the generator's JSON-decode error. -/
def parse_ai_response (s : Str) : Except GenError JVal :=
  match jsonLoads (generate_content_extract s) with
  | some v => .ok v
  | none => .error .jsonDecodeError

/-- Spec-side definition, from the claim's wording: the first balanced
brace-delimited span of the text (brace counting; the claims compare it with
what the code actually extracts). -/
def balancedTake : Str → Nat → Option Str
  | [], _ => none
  | c :: rest, d =>
    if c == 123 then
      match balancedTake rest (d + 1) with
      | some t => some (123 :: t)
      | none => none
    else if c == 125 then
      if d == 1 then some [125]
      else
        match balancedTake rest (d - 1) with
        | some t => some (125 :: t)
        | none => none
    else
      match balancedTake rest d with
      | some t => some (c :: t)
      | none => none

/-- The first balanced brace-delimited span (spec-side definition). -/
def firstBalancedSpan (s : Str) : Option Str :=
  match s.dropWhile (fun n => !(n == 123)) with
  | [] => none
  | t => balancedTake t 0

/-! ## Theorems -/

example : sanitize_filename (chs "John Doe!") = chs "john_doe" := by decide

example : sanitize_filename (chs "__Acme--Corp__") = chs "acme_corp" := by decide

example : validate_filename (chs "john_doe") = true := by decide

example : validate_filename (chs "ab") = false := by decide

example : validate_filename (chs "john__doe") = false := by decide

example : validate_filename (chs "_john") = false := by decide

/-! ## Substring infrastructure -/
theorem occursIn_iff {pat s : Str} : occursIn pat s = true ↔ pat <:+: s := by
  induction s with
  | nil =>
    simp only [occursIn, List.isEmpty_iff]
    constructor
    · rintro rfl; exact List.infix_rfl
    · intro h; exact List.eq_nil_of_infix_nil h
  | cons a rest ih =>
    simp only [occursIn, Bool.or_eq_true, List.isPrefixOf_iff_prefix, ih,
      List.infix_cons_iff]

theorem beqComm (a b : Nat) : (a == b) = (b == a) := by
  by_cases h : a = b
  · subst h; rfl
  · simp [h, Ne.symm h]

theorem chainOK_cons {a : Nat} {t : Str} :
    chainOK (a :: t) = true ↔ ((t.head? = some 95 → a ≠ 95) ∧ chainOK t = true) := by
  cases t
  · simp [chainOK]
  · simp only [chainOK, Bool.and_eq_true, Bool.not_eq_true', Bool.and_eq_false_iff,
      beq_eq_false_iff_ne, ne_eq, List.head?_cons, Option.some_inj]
    tauto

theorem chainOK_eq_not_occurs : ∀ s : Str, chainOK s = !(occursIn [95, 95] s)
  | [] => rfl
  | [_] => by simp [occursIn, chainOK, List.isPrefixOf]
  | a :: b :: r => by
    have ih := chainOK_eq_not_occurs (b :: r)
    show (!(a == 95 && b == 95) && chainOK (b :: r)) = !occursIn [95, 95] (a :: b :: r)
    rw [show occursIn [95, 95] (a :: b :: r) =
        ([95, 95].isPrefixOf (a :: b :: r) || occursIn [95, 95] (b :: r)) from rfl]
    rw [Bool.not_or, ← ih]
    have hpre : [95, 95].isPrefixOf (a :: b :: r) = (a == 95 && b == 95) := by
      simp [List.isPrefixOf, beqComm 95 a, beqComm 95 b]
    rw [hpre]

theorem chainOK_iff {s : Str} : chainOK s = true ↔ ¬ ([95, 95] <:+: s) := by
  rw [chainOK_eq_not_occurs s, Bool.not_eq_true', ← occursIn_iff]
  simp

theorem chainOK_anti {s t : Str} (hst : t <:+: s) (h : chainOK s = true) :
    chainOK t = true := by
  rw [chainOK_iff] at h ⊢
  exact fun hc => h (hc.trans hst)

/-- Map a function that fixes every element of a list. -/
theorem mapIdOn {f : Nat → Nat} : ∀ {l : Str}, (∀ n ∈ l, f n = n) → l.map f = l
  | [], _ => rfl
  | a :: t, h => by
    simp only [List.map_cons, h a (by simp)]
    rw [mapIdOn fun n hn => h n (by simp [hn])]

/-! ## Characterization of the sanitizer's output -/
theorem mem_collapse : ∀ (s : Str) (n : Nat), n ∈ collapseUnderscores s → n ∈ s
  | [], _, h => h
  | [_], _, h => h
  | a :: b :: r, n, h => by
    unfold collapseUnderscores at h
    split at h
    · exact List.mem_cons_of_mem a (mem_collapse (b :: r) n h)
    · rcases List.mem_cons.mp h with h | h
      · exact h ▸ List.mem_cons_self _ _
      · exact List.mem_cons_of_mem a (mem_collapse (b :: r) n h)

theorem collapse_head? : ∀ (b : Nat) (r : Str), (collapseUnderscores (b :: r)).head? = some b
  | _, [] => rfl
  | b, c :: r' => by
    unfold collapseUnderscores
    split
    · rename_i hbc
      rw [collapse_head? c r']
      simp only [Bool.and_eq_true, beq_iff_eq] at hbc
      rw [hbc.1, hbc.2]
    · rfl

theorem chainOK_collapse : ∀ s : Str, chainOK (collapseUnderscores s) = true
  | [] => rfl
  | [_] => rfl
  | a :: b :: r => by
    have ih := chainOK_collapse (b :: r)
    unfold collapseUnderscores
    split
    · exact ih
    · rename_i hab
      rw [chainOK_cons]
      refine ⟨?_, ih⟩
      intro hhead ha95
      rw [collapse_head? b r, Option.some_inj] at hhead
      exact hab (by simp [ha95, hhead])

theorem collapse_eq_self : ∀ {s : Str}, chainOK s = true → collapseUnderscores s = s
  | [], _ => rfl
  | [_], _ => rfl
  | a :: b :: r, h => by
    rcases Bool.and_eq_true_iff.mp h with ⟨hne, htail⟩
    unfold collapseUnderscores
    rw [if_neg (by simp_all; tauto), collapse_eq_self htail]

theorem head?_dropWhile_ne (p : Nat → Bool) :
    ∀ (s : Str) (a : Nat), (s.dropWhile p).head? = some a → p a = false
  | [], a, h => by simp [List.dropWhile] at h
  | b :: t, a, h => by
    rw [List.dropWhile_cons] at h
    split at h
    · exact head?_dropWhile_ne p t a h
    · rename_i hb
      rw [List.head?_cons, Option.some_inj] at h
      subst h
      simpa using hb

theorem prefix_head?_eq {s t : Str} {a : Nat} (hp : s <+: t) (h : s.head? = some a) :
    t.head? = some a := by
  cases s with
  | nil => simp at h
  | cons x s' =>
    cases t with
    | nil => exact absurd (List.prefix_nil.mp hp) (by simp)
    | cons y t' =>
      rw [List.cons_prefix_cons] at hp
      rw [List.head?_cons, Option.some_inj] at h
      rw [List.head?_cons, ← hp.1, h]

theorem strip_infix_self (s : Str) : stripUnderscores s <:+: s := by
  unfold stripUnderscores
  have h1 : s.dropWhile (· == 95) <:+ s := List.dropWhile_suffix _
  have h2 : (s.dropWhile (· == 95)).reverse.dropWhile (· == 95) <:+
      (s.dropWhile (· == 95)).reverse := List.dropWhile_suffix _
  have h3 := h2.reverse
  rw [List.reverse_reverse] at h3
  exact h3.isInfix.trans h1.isInfix

theorem strip_head_ne (s : Str) (a : Nat) :
    (stripUnderscores s).head? = some a → a ≠ 95 := by
  intro h
  unfold stripUnderscores at h
  have hp : ((s.dropWhile (· == 95)).reverse.dropWhile (· == 95)).reverse <+:
      s.dropWhile (· == 95) := by
    have := (List.dropWhile_suffix (l := (s.dropWhile (· == 95)).reverse) (· == 95)).reverse
    rwa [List.reverse_reverse] at this
  have hh := prefix_head?_eq hp h
  have := head?_dropWhile_ne (· == 95) s a hh
  simpa using this

theorem strip_last_ne (s : Str) (a : Nat) :
    (stripUnderscores s).getLast? = some a → a ≠ 95 := by
  intro h
  unfold stripUnderscores at h
  rw [List.getLast?_reverse] at h
  have := head?_dropWhile_ne (· == 95) (s.dropWhile (· == 95)).reverse a h
  simpa using this

theorem dropWhile_eq_self_of_head {p : Nat → Bool} {s : Str}
    (h : ∀ a, s.head? = some a → p a = false) : s.dropWhile p = s := by
  cases s with
  | nil => rfl
  | cons a t => simp [List.dropWhile_cons, h a rfl]

theorem lower_eq_95 {n : Nat} (h : lowerCode n = 95) : n = 95 := by
  unfold lowerCode at h
  split at h <;> omega

theorem lower_beq95 (n : Nat) : (lowerCode n == 95) = (n == 95) := by
  by_cases h : n = 95
  · subst h; rfl
  · have h2 : lowerCode n ≠ 95 := fun hc => h (lower_eq_95 hc)
    simp [h, h2]

theorem chainOK_map_lower : ∀ s : Str, chainOK (s.map lowerCode) = chainOK s
  | [] => rfl
  | [_] => rfl
  | a :: b :: r => by
    have ih := chainOK_map_lower (b :: r)
    show (!(lowerCode a == 95 && lowerCode b == 95) &&
      chainOK ((b :: r).map lowerCode)) = chainOK (a :: b :: r)
    rw [lower_beq95, lower_beq95, ih]
    rfl

theorem lower_word_san {m : Nat} (h : isWordCode m = true) : isSanCode (lowerCode m) = true := by
  simp only [isWordCode, Bool.or_eq_true, Bool.and_eq_true, decide_eq_true_eq, beq_iff_eq] at h
  simp only [isSanCode, lowerCode, Bool.or_eq_true, Bool.and_eq_true, decide_eq_true_eq,
    beq_iff_eq]
  split <;> omega

theorem mem_subst_word {s : Str} {m : Nat} (hm : m ∈ substNonWord s) : isWordCode m = true := by
  rcases List.mem_map.mp hm with ⟨k, -, rfl⟩
  by_cases h : isWordCode k = true
  · rw [if_pos h]; exact h
  · rw [if_neg h]; decide

/-- Every code point of the sanitizer's output is in `[a-z0-9_]`. -/
theorem sanitize_allSan (s : Str) : ∀ n ∈ sanitize_filename s, isSanCode n = true := by
  intro n hn
  unfold sanitize_filename at hn
  rcases List.mem_map.mp hn with ⟨m, hm, rfl⟩
  have hm2 : m ∈ collapseUnderscores (substNonWord (unidecodeModel s)) :=
    (strip_infix_self _).subset hm
  exact lower_word_san (mem_subst_word (mem_collapse _ _ hm2))

/-- The sanitizer's output never starts with an underscore. -/
theorem sanitize_head_ne (s : Str) : (sanitize_filename s).head? ≠ some 95 := by
  intro h
  unfold sanitize_filename at h
  rw [List.head?_map] at h
  rcases Option.map_eq_some'.mp h with ⟨a, ha, hla⟩
  exact strip_head_ne _ a ha (lower_eq_95 hla)

/-- The sanitizer's output never ends with an underscore. -/
theorem sanitize_last_ne (s : Str) : (sanitize_filename s).getLast? ≠ some 95 := by
  intro h
  unfold sanitize_filename at h
  rw [List.getLast?_map] at h
  rcases Option.map_eq_some'.mp h with ⟨a, ha, hla⟩
  exact strip_last_ne _ a ha (lower_eq_95 hla)

/-- The sanitizer's output has no two adjacent underscores. -/
theorem sanitize_chainOK (s : Str) : chainOK (sanitize_filename s) = true := by
  unfold sanitize_filename
  rw [chainOK_map_lower]
  exact chainOK_anti (strip_infix_self _) (chainOK_collapse _)

/-- The sanitizer is the identity on strings already in sanitized form. -/
theorem sanitize_eq_self {s : Str}
    (hsan : ∀ n ∈ s, isSanCode n = true)
    (hh : s.head? ≠ some 95) (hl : s.getLast? ≠ some 95)
    (hch : chainOK s = true) : sanitize_filename s = s := by
  unfold sanitize_filename
  rw [show unidecodeModel s = s from List.filter_eq_self.mpr ?flt]
  case flt =>
    intro n hn
    have := hsan n hn
    simp only [isSanCode, Bool.or_eq_true, Bool.and_eq_true, decide_eq_true_eq,
      beq_iff_eq] at this
    simp only [decide_eq_true_eq]
    omega
  rw [show substNonWord s = s from mapIdOn ?sub]
  case sub =>
    intro n hn
    have := hsan n hn
    simp only [isSanCode, Bool.or_eq_true, Bool.and_eq_true, decide_eq_true_eq,
      beq_iff_eq] at this
    have hw : isWordCode n = true := by
      simp only [isWordCode, Bool.or_eq_true, Bool.and_eq_true, decide_eq_true_eq, beq_iff_eq]
      omega
    simp [hw]
  rw [collapse_eq_self hch]
  have e1 : s.dropWhile (· == 95) = s := by
    refine dropWhile_eq_self_of_head fun a ha => ?_
    have hne : a ≠ 95 := fun hc => hh (by rw [ha, hc])
    simp [hne]
  have e2 : s.reverse.dropWhile (· == 95) = s.reverse := by
    refine dropWhile_eq_self_of_head fun a ha => ?_
    rw [List.head?_reverse] at ha
    have hne : a ≠ 95 := fun hc => hl (by rw [ha, hc])
    simp [hne]
  rw [show stripUnderscores s = s from ?str]
  case str =>
    unfold stripUnderscores
    rw [e1, e2, List.reverse_reverse]
  refine mapIdOn ?low
  intro n hn
  have := hsan n hn
  simp only [isSanCode, Bool.or_eq_true, Bool.and_eq_true, decide_eq_true_eq, beq_iff_eq] at this
  unfold lowerCode
  split <;> omega

/-! ## Claim C4 and C5 theorems -/
/-- C4: for every input string, the output of `_sanitize_filename` contains only
characters from `[a-z0-9_]`, has no leading or trailing underscore, contains no
run of two or more consecutive underscores, and applying the sanitizer to its
own output returns the output unchanged (idempotence). -/
theorem c4_sanitize_contract (s : Str) :
    (∀ n ∈ sanitize_filename s, isSanCode n = true) ∧
    (sanitize_filename s).head? ≠ some 95 ∧
    (sanitize_filename s).getLast? ≠ some 95 ∧
    ¬ ([95, 95] <:+: sanitize_filename s) ∧
    sanitize_filename (sanitize_filename s) = sanitize_filename s :=
  ⟨sanitize_allSan s, sanitize_head_ne s, sanitize_last_ne s,
    chainOK_iff.mp (sanitize_chainOK s),
    sanitize_eq_self (sanitize_allSan s) (sanitize_head_ne s) (sanitize_last_ne s)
      (sanitize_chainOK s)⟩

theorem fnameRegexMatch_iff (s : Str) : fnameRegexMatch s = true ↔
    ((s ≠ [] ∧ ∀ n ∈ s, isFnameCode n = true) ∨
     (s.getLastD 0 = 10 ∧ s.dropLast ≠ [] ∧ ∀ n ∈ s.dropLast, isFnameCode n = true)) := by
  unfold fnameRegexMatch
  simp only [Bool.or_eq_true, Bool.and_eq_true, Bool.not_eq_true', beq_iff_eq,
    List.all_eq_true]
  constructor
  · rintro (⟨hne, hall⟩ | ⟨⟨h10, hne⟩, hall⟩)
    · refine Or.inl ⟨?_, hall⟩
      intro hnil
      rw [hnil] at hne
      simp at hne
    · refine Or.inr ⟨h10, ?_, hall⟩
      intro hnil
      rw [hnil] at hne
      simp at hne
  · rintro (⟨hne, hall⟩ | ⟨h10, hne, hall⟩)
    · refine Or.inl ⟨?_, hall⟩
      cases hx : s.isEmpty with
      | false => rfl
      | true => exact absurd (List.isEmpty_iff.mp hx) hne
    · refine Or.inr ⟨⟨h10, ?_⟩, hall⟩
      cases hx : s.dropLast.isEmpty with
      | false => rfl
      | true => exact absurd (List.isEmpty_iff.mp hx) hne

theorem validate_filename_iff (s : Str) : validate_filename s = true ↔
    (5 ≤ s.length ∧
     ((∀ n ∈ s, isFnameCode n = true) ∨
      (s.getLastD 0 = 10 ∧ s.dropLast ≠ [] ∧ ∀ n ∈ s.dropLast, isFnameCode n = true)) ∧
     s.headD 0 ≠ 46 ∧ s.headD 0 ≠ 95 ∧ s.getLastD 0 ≠ 46 ∧ s.getLastD 0 ≠ 95 ∧
     ¬ ([46, 46] <:+: s) ∧ ¬ ([95, 95] <:+: s)) := by
  unfold validate_filename
  split_ifs with h1 h2 h3 h4
  · simp only [false_iff, not_and]
    intro hlen
    omega
  · simp only [false_iff]
    rintro ⟨hlen, hdisj, -⟩
    rw [Bool.not_eq_true'] at h2
    have hmatch : fnameRegexMatch s = true := by
      rw [fnameRegexMatch_iff]
      rcases hdisj with hall | hnl
      · refine Or.inl ⟨?_, hall⟩
        intro hnil
        subst hnil
        simp at hlen
      · exact Or.inr hnl
    rw [hmatch] at h2
    simp at h2
  · simp only [false_iff]
    rintro ⟨hlen, hall, hh46, hh95, hl46, hl95, -, -⟩
    simp only [Bool.or_eq_true, beq_iff_eq] at h3
    tauto
  · simp only [false_iff]
    rintro ⟨-, -, -, -, -, -, h46i, h95i⟩
    simp only [Bool.or_eq_true, occursIn_iff] at h4
    tauto
  · simp only [true_iff]
    simp only [Bool.not_eq_true, Bool.or_eq_false_iff, Bool.and_eq_false_iff,
      beq_eq_false_iff_ne, ne_eq] at h3 h4
    rw [Bool.not_eq_true'] at h2
    have h2x : fnameRegexMatch s = true := by
      cases hx : fnameRegexMatch s with
      | false => exact absurd hx h2
      | true => rfl
    rw [fnameRegexMatch_iff] at h2x
    refine ⟨by omega, ?_, h3.1.1, h3.1.2, h3.2.1, h3.2.2, ?_, ?_⟩
    · rcases h2x with ⟨-, hall⟩ | hnl
      · exact Or.inl hall
      · exact Or.inr hnl
    · rw [← occursIn_iff]
      simp [h4.1]
    · rw [← occursIn_iff]
      simp [h4.2]

/-- C5 counterexample: Python `$` (without MULTILINE) also matches just
before one trailing newline, so the validator accepts `"abcde\n"` although
that string contains a character — the newline — outside `[a-z0-9_.]`,
refuting the claimed equivalence. -/
theorem c5_counterexample :
    validate_filename (chs "abcde\n") = true ∧
    10 ∈ chs "abcde\n" ∧ isFnameCode 10 = false := by
  decide

/-- C5 (amended): `_validate_filename` returns true iff the string has length
at least 5, matches the anchored class regex — it consists only of lowercase
letters, digits, underscore and dot, except that one trailing newline is also
accepted (Python `$` matches just before it) — does not start or end with a
dot or underscore, and contains neither `..` nor `__`; it accepts `john_doe`
and rejects `ab`, `john__doe` and `_john`. -/
theorem c5_validate_filename_amended :
    (∀ s : Str, validate_filename s = true ↔
      (5 ≤ s.length ∧
       ((∀ n ∈ s, isFnameCode n = true) ∨
        (s.getLastD 0 = 10 ∧ s.dropLast ≠ [] ∧ ∀ n ∈ s.dropLast, isFnameCode n = true)) ∧
       s.headD 0 ≠ 46 ∧ s.headD 0 ≠ 95 ∧ s.getLastD 0 ≠ 46 ∧ s.getLastD 0 ≠ 95 ∧
       ¬ ([46, 46] <:+: s) ∧ ¬ ([95, 95] <:+: s))) ∧
    validate_filename (chs "john_doe") = true ∧
    validate_filename (chs "ab") = false ∧
    validate_filename (chs "john__doe") = false ∧
    validate_filename (chs "_john") = false :=
  ⟨validate_filename_iff, by decide, by decide, by decide, by decide⟩

example : cleanup_content (chs " ```html\nX") = chs "```html\nX" := by decide

example : cleanup_content (chs "```html\nX") = chs "X" := by decide

example : cleanup_content (chs "A<!-- c -->B") = chs "AB" := by decide

theorem removeCommentsFuel_eq_self :
    ∀ (f : Nat) (s : Str), hasComment s = false → removeCommentsFuel f s = s
  | 0, s, _ => by cases s <;> rfl
  | _ + 1, [], _ => rfl
  | f + 1, c :: rest, h => by
    unfold hasComment at h
    rw [Bool.or_eq_false_iff] at h
    obtain ⟨h1, h2⟩ := h
    rw [Bool.and_eq_false_iff] at h1
    unfold removeCommentsFuel
    by_cases hpre : (chs "<!--").isPrefixOf (c :: rest) = true
    · rw [if_pos hpre]
      rcases h1 with h1 | h1
      · rw [hpre] at h1
        simp at h1
      · cases hc : findCommentClose (rest.drop 3) with
        | none => rfl
        | some r => rw [hc] at h1; simp at h1
    · rw [if_neg hpre]
      exact congrArg (c :: ·) (removeCommentsFuel_eq_self f rest h2)

/-- C6 (amended): `_cleanup_content` is a no-op on already-clean text (no
leading ```` ```html ```` marker, no trailing fence, no HTML comments, no
surrounding whitespace).  Full idempotence fails: see the counterexample. -/
theorem c6_clean_noop (s : Str) (h : alreadyClean s = true) : cleanup_content s = s := by
  unfold alreadyClean at h
  simp only [Bool.and_eq_true, Bool.not_eq_true', beq_iff_eq,
    Option.isNone_iff_eq_none] at h
  obtain ⟨⟨⟨hlead, htail⟩, hcom⟩, hstrip⟩ := h
  unfold cleanup_content
  rw [show cleanupLeadFence s = s from ?lead]
  case lead =>
    unfold cleanupLeadFence
    rw [Bool.and_eq_false_iff] at hlead
    by_cases hpre : (chs "```html").isPrefixOf s = true
    · rw [if_pos hpre]
      rcases hlead with h1 | h1
      · rw [hpre] at h1
        simp at h1
      · cases hc : lastNewlinePos ((s.drop 7).takeWhile isSpaceCode) with
        | none => rfl
        | some k => rw [hc] at h1; simp at h1
    · rw [if_neg hpre]
  rw [show cleanupTailFence s = s from ?tail]
  case tail =>
    unfold cleanupTailFence
    rw [htail]
    rfl
  rw [show removeComments s = s from removeCommentsFuel_eq_self s.length s hcom]
  exact hstrip

/-- C6 witness: a concrete already-clean text on which cleanup is a no-op. -/
theorem c6_clean_noop_witness :
    alreadyClean (chs "hello") = true ∧ cleanup_content (chs "hello") = chs "hello" :=
  ⟨by decide, c6_clean_noop (chs "hello") (by decide)⟩

/-- C6 counterexample: cleanup is not idempotent.  Cleaning `" ```html\nX"`
yields ```` "```html\nX" ```` (the marker was not at the very start, and the
final strip exposes it); cleaning again strips the marker, yielding `"X"`. -/
theorem c6_counterexample :
    cleanup_content (cleanup_content (chs " ```html\nX")) ≠
      cleanup_content (chs " ```html\nX") := by decide

example : generate_documents_naming
    ⟨chs "john_doe", chs "ab", chs "delivery_director", chs "senior_resume"⟩ = .ok () := by
  decide

example : create_output_dir
    (some ⟨chs "john_doe", chs "ab", chs "delivery_director", chs "senior_resume"⟩)
    ⟨2025, 1, 1, 0, 0, 0⟩ = .ok (chs "resume_gen/250101000000_ab_delivery_director") := by
  decide

/-! ## Claims C1, C7, C9 -/
theorem bool_ne_true {b : Bool} (h : ¬ b = true) : b = false := by
  cases b
  · rfl
  · exact absurd rfl h

theorem bool_ne_false {b : Bool} (h : ¬ b = false) : b = true := by
  cases b
  · exact absurd rfl h
  · rfl

theorem naming_fail_first (md : DocumentMetadata)
    (h : validate_filename (sanitize_filename md.applicant_name) = false) :
    generate_documents_naming md =
      .error (.invalidComponent (sanitize_filename md.applicant_name)) := by
  unfold generate_documents_naming get_file_paths
  simp [h]

theorem naming_fail_second (md : DocumentMetadata)
    (h1 : validate_filename (sanitize_filename md.applicant_name) = true)
    (h : validate_filename (sanitize_filename md.job_title_short) = false) :
    generate_documents_naming md =
      .error (.invalidComponent (sanitize_filename md.job_title_short)) := by
  unfold generate_documents_naming get_file_paths
  simp [h1, h]

theorem naming_fail_third (md : DocumentMetadata)
    (h1 : validate_filename (sanitize_filename md.applicant_name) = true)
    (h2 : validate_filename (sanitize_filename md.job_title_short) = true)
    (h : validate_filename (sanitize_filename md.resume_title_short) = false) :
    generate_documents_naming md =
      .error (.invalidComponent (sanitize_filename md.resume_title_short)) := by
  unfold generate_documents_naming get_file_paths
  simp [h1, h2, h]

/-- C1 (amended): before directory allocation, `generate_documents` validates
the sanitized `applicant_name`, `job_title_short` and `resume_title_short`
(success of the naming phase implies all three pass; failure of any of them
aborts with a naming error), but the sanitized `company_name_short` is not
checked on its own before allocation — it is only checked at allocation time
embedded inside the timestamped directory name (see the counterexample). -/
theorem c1_naming_validates_before_allocation (md : DocumentMetadata) :
    (generate_documents_naming md = .ok () →
      validate_filename (sanitize_filename md.applicant_name) = true ∧
      validate_filename (sanitize_filename md.job_title_short) = true ∧
      validate_filename (sanitize_filename md.resume_title_short) = true) ∧
    ((validate_filename (sanitize_filename md.applicant_name) = false ∨
      validate_filename (sanitize_filename md.job_title_short) = false ∨
      validate_filename (sanitize_filename md.resume_title_short) = false) →
      ∃ e, generate_documents_naming md = .error e) := by
  constructor
  · intro hok
    by_cases v1 : validate_filename (sanitize_filename md.applicant_name) = true
    · by_cases v2 : validate_filename (sanitize_filename md.job_title_short) = true
      · by_cases v3 : validate_filename (sanitize_filename md.resume_title_short) = true
        · exact ⟨v1, v2, v3⟩
        · rw [naming_fail_third md v1 v2 (bool_ne_true v3)] at hok
          exact absurd hok (by simp)
      · rw [naming_fail_second md v1 (bool_ne_true v2)] at hok
        exact absurd hok (by simp)
    · rw [naming_fail_first md (bool_ne_true v1)] at hok
      exact absurd hok (by simp)
  · rintro (h | h | h)
    · exact ⟨_, naming_fail_first md h⟩
    · by_cases v1 : validate_filename (sanitize_filename md.applicant_name) = true
      · exact ⟨_, naming_fail_second md v1 h⟩
      · exact ⟨_, naming_fail_first md (bool_ne_true v1)⟩
    · by_cases v1 : validate_filename (sanitize_filename md.applicant_name) = true
      · by_cases v2 : validate_filename (sanitize_filename md.job_title_short) = true
        · exact ⟨_, naming_fail_third md v1 v2 h⟩
        · exact ⟨_, naming_fail_second md v1 (bool_ne_true v2)⟩
      · exact ⟨_, naming_fail_first md (bool_ne_true v1)⟩

/-- C1 witness: a metadata record on which the naming phase succeeds, so the
three checked fields all pass the validator. -/
theorem c1_witness :
    validate_filename (sanitize_filename (chs "john_doe")) = true ∧
    validate_filename (sanitize_filename (chs "delivery_director")) = true ∧
    validate_filename (sanitize_filename (chs "senior_resume")) = true :=
  (c1_naming_validates_before_allocation
    ⟨chs "john_doe", chs "acme_corp", chs "delivery_director", chs "senior_resume"⟩).1
    (by decide)

/-- C1 counterexample: with `company_name_short = "ab"`, whose sanitized form
fails the validator, the naming phase of `generate_documents` succeeds anyway
and the directory allocation also succeeds — the run proceeds to allocation
with a metadata field whose sanitized form fails the filename validator, and
no naming error is raised. -/
theorem c1_counterexample :
    validate_filename (sanitize_filename (chs "ab")) = false ∧
    generate_documents_naming
      ⟨chs "john_doe", chs "ab", chs "delivery_director", chs "senior_resume"⟩ = .ok () ∧
    create_output_dir
      (some ⟨chs "john_doe", chs "ab", chs "delivery_director", chs "senior_resume"⟩)
      ⟨2025, 1, 1, 0, 0, 0⟩ =
      .ok (chs "resume_gen/250101000000_ab_delivery_director") := by
  decide

theorem slash_not_mem_sanitize (s : Str) : ¬ 47 ∈ sanitize_filename s := fun h =>
  absurd (sanitize_allSan s 47 h) (by decide)

theorem no_slash_component (a b lit1 lit2 : Str)
    (h1 : ¬ 47 ∈ lit1) (h2 : ¬ 47 ∈ lit2) :
    ¬ 47 ∈ (sanitize_filename a ++ lit1 ++ sanitize_filename b ++ lit2) := by
  simp only [List.mem_append]
  rintro (((h | h) | h) | h)
  · exact slash_not_mem_sanitize a h
  · exact h1 h
  · exact slash_not_mem_sanitize b h
  · exact h2 h

/-- C7 (amended): on any successful allocation, the output directory is
`resume_gen/{timestamp}_{sanitized company}_{sanitized job title}` — a
relative path (it does not begin with `/`), not an absolute one — and the four
generated paths are that one directory plus a slash-free file name each. -/
theorem c7_dir_name_and_shared_relative_paths (md : DocumentMetadata) (ts : Timestamp)
    (dir p1 p2 p3 p4 : Str)
    (hdir : create_output_dir (some md) ts = .ok dir)
    (hpaths : get_file_paths (some md) dir = .ok (p1, p2, p3, p4)) :
    dir = chs "resume_gen/" ++ (format_timestamp ts ++ chs "_" ++
      sanitize_filename md.company_name_short ++ chs "_" ++
      sanitize_filename md.job_title_short) ∧
    dir.head? ≠ some 47 ∧
    (∃ n1 n2 n3 n4 : Str, (¬ 47 ∈ n1) ∧ (¬ 47 ∈ n2) ∧ (¬ 47 ∈ n3) ∧ (¬ 47 ∈ n4) ∧
      p1 = dir ++ chs "/" ++ n1 ∧ p2 = dir ++ chs "/" ++ n2 ∧
      p3 = dir ++ chs "/" ++ n3 ∧ p4 = dir ++ chs "/" ++ n4) := by
  simp only [create_output_dir] at hdir
  split at hdir
  case isFalse => exact absurd hdir (by simp)
  case isTrue =>
    rw [Except.ok.injEq] at hdir
    simp only [get_file_paths] at hpaths
    split_ifs at hpaths with g1 g2 g3
    rw [Except.ok.injEq, Prod.mk.injEq, Prod.mk.injEq, Prod.mk.injEq] at hpaths
    obtain ⟨e1, e2, e3, e4⟩ := hpaths
    refine ⟨?_, ?_, ?_⟩
    · rw [← hdir]
    · rw [← hdir]
      intro hc
      rw [show ((chs "resume_gen/" ++ (format_timestamp ts ++ chs "_" ++
          sanitize_filename md.company_name_short ++ chs "_" ++
          sanitize_filename md.job_title_short)).head? = some 114) from rfl] at hc
      exact absurd hc (by decide)
    · refine ⟨sanitize_filename md.applicant_name ++ chs "_" ++
          sanitize_filename md.resume_title_short ++ chs ".html",
        sanitize_filename md.applicant_name ++ chs "_" ++
          sanitize_filename md.resume_title_short ++ chs ".pdf",
        sanitize_filename md.applicant_name ++ chs "_cover_letter_" ++
          sanitize_filename md.job_title_short ++ chs ".html",
        sanitize_filename md.applicant_name ++ chs "_cover_letter_" ++
          sanitize_filename md.job_title_short ++ chs ".pdf", ?_, ?_, ?_, ?_, ?_, ?_, ?_, ?_⟩
      · exact no_slash_component md.applicant_name md.resume_title_short (chs "_") (chs ".html") (by decide) (by decide)
      · exact no_slash_component md.applicant_name md.resume_title_short (chs "_") (chs ".pdf") (by decide) (by decide)
      · exact no_slash_component md.applicant_name md.job_title_short (chs "_cover_letter_") (chs ".html") (by decide) (by decide)
      · exact no_slash_component md.applicant_name md.job_title_short (chs "_cover_letter_") (chs ".pdf") (by decide) (by decide)
      · rw [← e1]
        simp [List.append_assoc]
      · rw [← e2]
        simp [List.append_assoc]
      · rw [← e3]
        simp [List.append_assoc]
      · rw [← e4]
        simp [List.append_assoc]

/-- C7 witness: a concrete successful allocation hitting the theorem. -/
theorem c7_witness :
    chs "resume_gen/250101000000_acme_corp_delivery_director" =
      chs "resume_gen/" ++ (format_timestamp ⟨2025, 1, 1, 0, 0, 0⟩ ++ chs "_" ++
        sanitize_filename (chs "acme_corp") ++ chs "_" ++
        sanitize_filename (chs "delivery_director")) ∧
    (chs "resume_gen/250101000000_acme_corp_delivery_director").head? ≠ some 47 ∧
    (∃ n1 n2 n3 n4 : Str, (¬ 47 ∈ n1) ∧ (¬ 47 ∈ n2) ∧ (¬ 47 ∈ n3) ∧ (¬ 47 ∈ n4) ∧
      chs "resume_gen/250101000000_acme_corp_delivery_director/john_doe_senior_resume.html" =
        chs "resume_gen/250101000000_acme_corp_delivery_director" ++ chs "/" ++ n1 ∧
      chs "resume_gen/250101000000_acme_corp_delivery_director/john_doe_senior_resume.pdf" =
        chs "resume_gen/250101000000_acme_corp_delivery_director" ++ chs "/" ++ n2 ∧
      chs "resume_gen/250101000000_acme_corp_delivery_director/john_doe_cover_letter_delivery_director.html" =
        chs "resume_gen/250101000000_acme_corp_delivery_director" ++ chs "/" ++ n3 ∧
      chs "resume_gen/250101000000_acme_corp_delivery_director/john_doe_cover_letter_delivery_director.pdf" =
        chs "resume_gen/250101000000_acme_corp_delivery_director" ++ chs "/" ++ n4) :=
  c7_dir_name_and_shared_relative_paths
    ⟨chs "john_doe", chs "acme_corp", chs "delivery_director", chs "senior_resume"⟩
    ⟨2025, 1, 1, 0, 0, 0⟩ _ _ _ _ _ (by decide) (by decide)

/-- C7 counterexample: the paths returned by a successful `generate_pdfs` run
are relative (rooted at `resume_gen`), not absolute — they do not start with
`/`. -/
theorem c7_counterexample :
    (generate_pdfs
      (some ⟨chs "john_doe", chs "acme_corp", chs "delivery_director", chs "senior_resume"⟩)
      ⟨2025, 1, 1, 0, 0, 0⟩ (chs "c") (chs "<html></html>") (chs "<html></html>")).1 =
      .ok (chs "resume_gen/250101000000_acme_corp_delivery_director/john_doe_senior_resume.pdf",
        chs "resume_gen/250101000000_acme_corp_delivery_director/john_doe_cover_letter_delivery_director.pdf") ∧
    (chs "resume_gen/250101000000_acme_corp_delivery_director/john_doe_senior_resume.pdf").head?
      ≠ some 47 ∧
    (chs "resume_gen/250101000000_acme_corp_delivery_director/john_doe_cover_letter_delivery_director.pdf").head?
      ≠ some 47 := by
  decide

/-- C9: invoking `generate_pdfs` (or either path-allocation step) before a
successful `generate_documents` has stored metadata yields the
"metadata not initialized" generator error, with no directory created and no
file written. -/
theorem c9_metadata_uninitialized (ts : Timestamp) (css rh lh : Str) :
    generate_pdfs none ts css rh lh = (.error .metadataNotInitialized, []) ∧
    create_output_dir none ts = .error .metadataNotInitialized ∧
    get_file_paths none (chs "test") = .error .metadataNotInitialized :=
  ⟨rfl, rfl, rfl⟩

theorem fieldMissing_iff (content : List (Str × JVal)) (f : Str) :
    fieldMissing content f = true ↔ jlookup content f = none := by
  simp [fieldMissing, Option.isNone_iff_eq_none]

theorem fieldMissing_false_iff (content : List (Str × JVal)) (f : Str) :
    fieldMissing content f = false ↔ ∃ v, jlookup content f = some v := by
  cases h : jlookup content f <;> simp [fieldMissing, h]

theorem fieldEmpty_false_iff (content : List (Str × JVal)) (f : Str) :
    fieldEmpty content f = false ↔ ∃ v, jlookup content f = some v ∧ truthy v = true := by
  cases h : jlookup content f <;> simp [fieldEmpty, h]

theorem fieldEmpty_true_of_some (content : List (Str × JVal)) (f : Str) (v : JVal)
    (h : jlookup content f = some v) : (fieldEmpty content f = true ↔ truthy v = false) := by
  simp [fieldEmpty, h]

/-- C3: field validation succeeds iff every one of the six required fields is
present with a truthy value (for string-valued fields: present and
non-empty); a missing key yields a validation error listing exactly the
required fields that are absent; an empty value (when nothing is missing)
yields a validation error listing exactly the required fields whose values
are falsy; no missing or empty field is ever defaulted — success requires
every field to be present and non-empty. -/
theorem c3_validate_json_response (content : List (Str × JVal)) :
    (validate_json_response content = .ok () ↔
      ∀ f ∈ requiredFields, ∃ v, jlookup content f = some v ∧ truthy v = true) ∧
    ((∃ f ∈ requiredFields, jlookup content f = none) →
      ∃ ms, validate_json_response content = .error (.missingFields ms) ∧
        ∀ f, f ∈ ms ↔ (f ∈ requiredFields ∧ jlookup content f = none)) ∧
    ((∀ f ∈ requiredFields, ∃ v, jlookup content f = some v) →
     (∃ f ∈ requiredFields, ∃ v, jlookup content f = some v ∧ truthy v = false) →
      ∃ es, validate_json_response content = .error (.emptyFields es) ∧
        ∀ f, f ∈ es ↔ (f ∈ requiredFields ∧
          ∃ v, jlookup content f = some v ∧ truthy v = false)) := by
  refine ⟨?_, ?_, ?_⟩
  · constructor
    · intro hok f hf
      unfold validate_json_response at hok
      split_ifs at hok with h1 h2
      have h1x : (List.filter (fieldMissing content) requiredFields).isEmpty = true := by
        have hx := bool_ne_true h1
        rwa [Bool.not_eq_false'] at hx
      have h2x : (List.filter (fieldEmpty content) requiredFields).isEmpty = true := by
        have hx := bool_ne_true h2
        rwa [Bool.not_eq_false'] at hx
      rw [List.isEmpty_iff, List.filter_eq_nil_iff] at h1x h2x
      have he := h2x f hf
      rw [Bool.not_eq_true, fieldEmpty_false_iff] at he
      exact he
    · intro hall
      have hm : requiredFields.filter (fieldMissing content) = [] := by
        rw [List.filter_eq_nil_iff]
        intro f hf
        obtain ⟨v, hv, -⟩ := hall f hf
        simp [fieldMissing, hv]
      have he : requiredFields.filter (fieldEmpty content) = [] := by
        rw [List.filter_eq_nil_iff]
        intro f hf
        rw [Bool.not_eq_true, fieldEmpty_false_iff]
        exact hall f hf
      unfold validate_json_response
      rw [hm, he]
      rfl
  · rintro ⟨f, hf, hnone⟩
    have hne : (requiredFields.filter (fieldMissing content)).isEmpty = false := by
      rw [← Bool.not_eq_true, List.isEmpty_iff]
      intro hnil
      have : f ∈ requiredFields.filter (fieldMissing content) :=
        List.mem_filter.mpr ⟨hf, (fieldMissing_iff content f).mpr hnone⟩
      rw [hnil] at this
      exact absurd this (List.not_mem_nil f)
    refine ⟨requiredFields.filter (fieldMissing content), ?_, ?_⟩
    · unfold validate_json_response
      rw [hne]
      rfl
    · intro g
      rw [List.mem_filter, fieldMissing_iff]
  · intro hpresent
    rintro ⟨f, hf, v, hv, hfalse⟩
    have hm : requiredFields.filter (fieldMissing content) = [] := by
      rw [List.filter_eq_nil_iff]
      intro g hg
      obtain ⟨w, hw⟩ := hpresent g hg
      simp [fieldMissing, hw]
    have hne : (requiredFields.filter (fieldEmpty content)).isEmpty = false := by
      rw [← Bool.not_eq_true, List.isEmpty_iff]
      intro hnil
      have : f ∈ requiredFields.filter (fieldEmpty content) :=
        List.mem_filter.mpr ⟨hf, (fieldEmpty_true_of_some content f v hv).mpr hfalse⟩
      rw [hnil] at this
      exact absurd this (List.not_mem_nil f)
    refine ⟨requiredFields.filter (fieldEmpty content), ?_, ?_⟩
    · unfold validate_json_response
      rw [hm, hne]
      rfl
    · intro g
      rw [List.mem_filter]
      constructor
      · rintro ⟨hg, hemp⟩
        obtain ⟨w, hw⟩ := hpresent g hg
        exact ⟨hg, w, hw, (fieldEmpty_true_of_some content g w hw).mp hemp⟩
      · rintro ⟨hg, w, hw, hwf⟩
        exact ⟨hg, (fieldEmpty_true_of_some content g w hw).mpr hwf⟩

/-- C3 witness: the spec's two examples — an object missing
`cover_letter_html` fails with a validation error naming that field, and an
object whose `applicant_name` is the empty string fails with a validation
error naming it. -/
theorem c3_witness :
    (∃ ms, validate_json_response
        [(chs "resume_html", .jstr (chs "<html>")),
         (chs "applicant_name", .jstr (chs "john_doe")),
         (chs "company_name_short", .jstr (chs "acme_corp")),
         (chs "job_title_short", .jstr (chs "delivery_director")),
         (chs "resume_title_short", .jstr (chs "senior_resume"))] =
        .error (.missingFields ms) ∧
      ∀ f, f ∈ ms ↔ (f ∈ requiredFields ∧ jlookup
        [(chs "resume_html", .jstr (chs "<html>")),
         (chs "applicant_name", .jstr (chs "john_doe")),
         (chs "company_name_short", .jstr (chs "acme_corp")),
         (chs "job_title_short", .jstr (chs "delivery_director")),
         (chs "resume_title_short", .jstr (chs "senior_resume"))] f = none)) :=
  (c3_validate_json_response _).2.1 ⟨chs "cover_letter_html", by decide, rfl⟩

/-- C10: the emptiness check is Python truthiness, not content: a required
field whose value is the whitespace string `" "` passes validation and is
stored in the document metadata verbatim, while the empty string, `0`,
`false` and `null` are all rejected as empty. -/
theorem c10_truthiness_check :
    validate_json_response (c10obj (.jstr (chs " "))) = .ok () ∧
    store_metadata (c10obj (.jstr (chs " "))) =
      some ⟨chs " ", chs "acme_corp", chs "delivery_director", chs "senior_resume"⟩ ∧
    validate_json_response (c10obj (.jstr [])) =
      .error (.emptyFields [chs "applicant_name"]) ∧
    validate_json_response (c10obj (.jnum 0)) =
      .error (.emptyFields [chs "applicant_name"]) ∧
    validate_json_response (c10obj (.jbool false)) =
      .error (.emptyFields [chs "applicant_name"]) ∧
    validate_json_response (c10obj .jnull) =
      .error (.emptyFields [chs "applicant_name"]) := by
  decide

example : jsonLoads (chs "\x7b\"a\": 1\x7d") = some (.jobj [(chs "a", .jnum 1)]) := rfl

example : jsonLoads (chs "\x7b\"a\": 1\x7d x \x7b\"b\": 2\x7d") = none := rfl

example : generate_content_extract (chs "\x7b\"a\": 1\x7d x \x7b\"b\": 2\x7d") =
    chs "\x7b\"a\": 1\x7d x \x7b\"b\": 2\x7d" := rfl

example : firstBalancedSpan (chs "\x7b\"a\": 1\x7d x \x7b\"b\": 2\x7d") =
    some (chs "\x7b\"a\": 1\x7d") := rfl

example : generate_content_extract (chs "prose ```json\n\x7b\"a\": 1\x7d\n``` tail") =
    chs "\x7b\"a\": 1\x7d" := rfl

theorem findIdx?_first {p : Nat → Bool} :
    ∀ (l₁ : Str) (c : Nat) (l₂ : Str) (i : Nat),
      (∀ x ∈ l₁, p x = false) → p c = true →
      List.findIdx? p (l₁ ++ c :: l₂) i = some (i + l₁.length)
  | [], c, l₂, i, _, hc => by simp [List.findIdx?_cons, hc]
  | a :: t, c, l₂, i, h, hc => by
    have ha := h a (by simp)
    rw [List.cons_append, List.findIdx?_cons, if_neg (by simp [ha]),
      findIdx?_first t c l₂ (i + 1) (fun x hx => h x (by simp [hx])) hc]
    simp
    omega

/-- C2 (amended): after the whitespace/fence stripping stages, the extraction
step keeps the span from the first open brace to the last closing brace — not
the first balanced JSON object — and the parse step succeeds exactly when
JSON-decoding that extracted span succeeds. -/
theorem c2_first_to_last_brace_span (pre mid post : Str)
    (h1 : pstrip (pre ++ mid ++ post) = pre ++ mid ++ post)
    (h2 : stripJsonLeadFence (pre ++ mid ++ post) = pre ++ mid ++ post)
    (h3 : stripJsonTailFence (pre ++ mid ++ post) = pre ++ mid ++ post)
    (hpre : ∀ x ∈ pre, x ≠ 123) (hpost : ∀ x ∈ post, x ≠ 125)
    (hm1 : mid.head? = some 123) (hm2 : mid.getLast? = some 125) :
    generate_content_extract (pre ++ mid ++ post) = mid ∧
    ∀ v, (parse_ai_response (pre ++ mid ++ post) = .ok v ↔ jsonLoads mid = some v) := by
  obtain ⟨mtail, rfl⟩ : ∃ mtail, mid = 123 :: mtail := by
    cases mid with
    | nil => simp at hm1
    | cons a t =>
      rw [List.head?_cons, Option.some_inj] at hm1
      exact ⟨t, by rw [hm1]⟩
  have hmt : mtail ≠ [] := by
    intro hnil
    subst hnil
    simp at hm2
  obtain ⟨mbody, rfl⟩ : ∃ mbody, mtail = mbody ++ [125] := by
    have hl : (123 :: mtail).getLast (by simp) = 125 := by
      have hx := List.getLast?_eq_getLast (123 :: mtail) (by simp)
      rw [hm2] at hx
      exact (Option.some_inj.mp hx).symm
    have hl2 : mtail.getLast hmt = 125 := by
      rw [← hl]
      exact (List.getLast_cons hmt).symm
    refine ⟨mtail.dropLast, ?_⟩
    rw [← hl2]
    exact (List.dropLast_append_getLast hmt).symm
  have hmain : extractBraceSpan (pre ++ (123 :: (mbody ++ [125])) ++ post) =
      123 :: (mbody ++ [125]) := by
    have hshape : (pre ++ (123 :: (mbody ++ [125]))) ++ post =
        pre ++ 123 :: ((mbody ++ [125]) ++ post) := by
      rw [List.append_assoc, List.cons_append]
    have hfind1 : List.findIdx? (· == 123) ((pre ++ (123 :: (mbody ++ [125]))) ++ post) =
        some pre.length := by
      rw [hshape, findIdx?_first pre 123 ((mbody ++ [125]) ++ post) 0
        (fun x hx => by simp [hpre x hx]) (by decide)]
      simp
    have hfind2 : List.findIdx? (· == 125)
        (((pre ++ (123 :: (mbody ++ [125]))) ++ post).reverse) = some post.length := by
      have hrev : ((pre ++ (123 :: (mbody ++ [125]))) ++ post).reverse =
          post.reverse ++ 125 :: (mbody.reverse ++ (123 :: pre.reverse)) := by
        simp [List.reverse_append]
      rw [hrev, findIdx?_first post.reverse 125 (mbody.reverse ++ (123 :: pre.reverse)) 0
        (fun x hx => by simp [hpost x (List.mem_reverse.mp hx)]) (by decide)]
      simp
    have hlen : ((pre ++ (123 :: (mbody ++ [125]))) ++ post).length =
        pre.length + (mbody.length + 2) + post.length := by
      simp only [List.length_append, List.length_cons, List.length_nil]
    simp only [extractBraceSpan, hfind1, hfind2]
    rw [hlen]
    rw [show pre.length + (mbody.length + 2) + post.length - 1 - post.length =
        pre.length + (mbody.length + 1) from by omega]
    rw [if_pos (by omega)]
    rw [show pre.length + (mbody.length + 1) + 1 =
        (pre ++ (123 :: (mbody ++ [125]))).length from by
      simp only [List.length_append, List.length_cons, List.length_nil]
      omega]
    rw [List.take_left]
    rw [List.drop_left]
  refine ⟨?_, ?_⟩
  · unfold generate_content_extract
    rw [h1, h2, h3, hmain]
  · intro v
    unfold parse_ai_response generate_content_extract
    rw [h1, h2, h3, hmain]
    cases hj : jsonLoads (123 :: (mbody ++ [125])) <;> simp

/-- C2 witness: for `x {"a": 1} y` the extraction keeps exactly the brace
span, via the amended theorem at a concrete input. -/
theorem c2_witness :
    generate_content_extract (chs "x " ++ chs "\x7b\"a\": 1\x7d" ++ chs " y") =
      chs "\x7b\"a\": 1\x7d" :=
  (c2_first_to_last_brace_span (chs "x ") (chs "\x7b\"a\": 1\x7d") (chs " y")
    (by decide) (by decide) (by decide) (by decide) (by decide) (by decide) (by decide)).1

/-- C2 counterexample: on `{"a": 1} x {"b": 2}` the code keeps the whole
first-brace-to-last-brace span, whose JSON decoding fails, so parsing raises
the decode error — although the text contains a balanced JSON object
(`{"a": 1}`, the spec-side `firstBalancedSpan`) that decodes successfully,
which the claim says is what gets extracted. -/
theorem c2_counterexample :
    generate_content_extract (chs "\x7b\"a\": 1\x7d x \x7b\"b\": 2\x7d") =
      chs "\x7b\"a\": 1\x7d x \x7b\"b\": 2\x7d" ∧
    parse_ai_response (chs "\x7b\"a\": 1\x7d x \x7b\"b\": 2\x7d") =
      .error .jsonDecodeError ∧
    firstBalancedSpan (chs "\x7b\"a\": 1\x7d x \x7b\"b\": 2\x7d") =
      some (chs "\x7b\"a\": 1\x7d") ∧
    jsonLoads (chs "\x7b\"a\": 1\x7d") = some (.jobj [(chs "a", .jnum 1)]) :=
  ⟨rfl, rfl, rfl, rfl⟩

theorem replaceGo_contains_rep (pat rep : Str) :
    ∀ (f : Nat) (s : Str), s.length ≤ f → pat ≠ [] → occursIn pat s = true →
      rep <:+: replaceGo pat rep f s
  | 0, s, hle, hne, hocc => by
    have : s = [] := List.length_eq_zero.mp (Nat.le_zero.mp hle)
    subst this
    rw [show occursIn pat [] = pat.isEmpty from rfl, List.isEmpty_iff] at hocc
    exact absurd hocc hne
  | _ + 1, [], _, hne, hocc => by
    rw [show occursIn pat [] = pat.isEmpty from rfl, List.isEmpty_iff] at hocc
    exact absurd hocc hne
  | f + 1, c :: rest, hle, hne, hocc => by
    unfold replaceGo
    by_cases hp : pat.isPrefixOf (c :: rest) = true
    · rw [if_pos hp]
      exact (List.prefix_append rep _).isInfix
    · rw [if_neg hp]
      rw [show occursIn pat (c :: rest) =
          (pat.isPrefixOf (c :: rest) || occursIn pat rest) from rfl,
        bool_ne_true hp, Bool.false_or] at hocc
      have hlen : rest.length ≤ f := by
        simp only [List.length_cons] at hle
        omega
      exact List.infix_cons (replaceGo_contains_rep pat rep f rest hlen hne hocc)

/-- C8 (amended): the HTML written for each document is `prepare_html` of the
body, which removes every (left-to-right, non-overlapping) occurrence of the
one exact link tag `<link rel="stylesheet" href="/resume/style.css">` — other
external stylesheet references are untouched — and, whenever the
link-stripped body still contains `</head>`, the written HTML contains the
inline style block immediately before a closing head tag. -/
theorem c8_inline_style_before_head (css html : Str)
    (h : occursIn (chs "</head>") (replaceAll linkTag [] html) = true) :
    (chs "<style>" ++ css ++ chs "</style></head>") <:+: prepare_html css html := by
  have step := replaceGo_contains_rep (chs "</head>")
    (chs "<style>" ++ css ++ chs "</style></head>")
    (replaceAll linkTag [] html).length (replaceAll linkTag [] html)
    (Nat.le_refl _) (by decide) h
  unfold prepare_html replaceAll
  rw [if_neg (by decide)]
  exact step

/-- C8 witness: the style block is spliced in before `</head>` on a concrete
document. -/
theorem c8_witness :
    (chs "<style>" ++ chs "p" ++ chs "</style></head>") <:+:
      prepare_html (chs "p") (chs "<html><head></head><body>b</body></html>") :=
  c8_inline_style_before_head (chs "p")
    (chs "<html><head></head><body>b</body></html>") (by decide)

/-- C8 counterexample: an external stylesheet reference other than the exact
`/resume/style.css` link tag survives in the HTML written to disk, refuting
"every external stylesheet reference is removed". -/
theorem c8_counterexample :
    occursIn (chs "<link rel=\"stylesheet\" href=\"other.css\">")
      (prepare_html (chs "p")
        (chs "<html><head><link rel=\"stylesheet\" href=\"other.css\"></head><body>b</body></html>"))
      = true := by
  decide
